import Mathlib

/-!
# Verification of the PDF-Scrapper URL-resolution and download logic

Shallow embedding of `src/main.py` (a PDF.js viewer scraper).  Pure string
manipulation (regex pattern matching, `urllib.parse` URL handling,
`requests.utils.requote_uri`) is translated into executable Lean functions;
the two HTTP requests and the filesystem are modelled by explicit parameters
(`net : String → HttpResponse`, `FS`).

Modelling conventions, stated once here:
* Python `str` is modelled as `String`/`List Char`.  Case folding
  (`str.lower`) and the character classes `isalpha`/`isalnum`/`\s` are
  modelled at the ASCII level, which is exact for all ASCII input.
* Percent-decoding (`urllib.parse.unquote`) is modelled byte-for-byte,
  identifying a decoded byte with the code point of a character; this is
  exact for single-byte (ASCII/Latin-1) escapes.  Multi-byte UTF-8
  recombination is outside the model.
* `urllib.parse.urlsplit`'s rejection of malformed bracketed IPv6 hosts is
  outside the model (no claim exercises bracketed hosts).
* The HTML parser (BeautifulSoup, a third-party library) is abstracted: the
  parsed document is an explicit `List Element` in document order, carried
  by the `HttpResponse` next to the raw text it parses.
-/

namespace PdfScrapper

/-! ## Python string primitives -/

/-- `str.lower` on a character, ASCII model. -/
def pyLowerC (c : Char) : Char := c.toLower

/-- `str.lower` on a list of characters. -/
def pyLowerL (l : List Char) : List Char := l.map pyLowerC

/-- `str.lower` on a string. -/
def pyLower (s : String) : String := ⟨pyLowerL s.toList⟩

/-- Python `\s` / `str.strip` whitespace (ASCII part). -/
def isPyWs (c : Char) : Bool :=
  c == ' ' || c == '\t' || c == '\n' || c == '\r' || c == '\x0b' || c == '\x0c'

/-- `str.strip()`. -/
def pyStrip (s : String) : String :=
  ⟨((s.toList.dropWhile isPyWs).reverse.dropWhile isPyWs).reverse⟩

/-- `str.endswith(suffix)`. -/
def pyEndsWith (s suffix : String) : Bool := suffix.toList.isSuffixOf s.toList

/-- Split a list at the first occurrence of `sep` (Python `split(sep, 1)`);
`none` when `sep` does not occur. -/
def splitOnceL (sep : Char) : List Char → Option (List Char × List Char)
  | [] => none
  | c :: rest =>
    if c == sep then some ([], rest)
    else
      match splitOnceL sep rest with
      | some (a, b) => some (c :: a, b)
      | none => none

/-- Python `str.split(sep)` for a single-character separator
(`"".split(sep) = [""]`). -/
def splitCharL (sep : Char) : List Char → List (List Char)
  | [] => [[]]
  | c :: rest =>
    if c == sep then [] :: splitCharL sep rest
    else
      match splitCharL sep rest with
      | h :: t => (c :: h) :: t
      | [] => [[c]]

/-- Value of a hexadecimal digit character. -/
def hexVal? (c : Char) : Option Nat :=
  if '0' ≤ c ∧ c ≤ '9' then some (c.toNat - 48)
  else if 'a' ≤ c ∧ c ≤ 'f' then some (c.toNat - 87)
  else if 'A' ≤ c ∧ c ≤ 'F' then some (c.toNat - 55)
  else none

/-- `urllib.parse.unquote`, byte-level model: each valid `%XX` escape becomes
the character with code point `XX`; invalid escapes are left alone. -/
def pyUnquoteL : List Char → List Char
  | '%' :: a :: b :: rest =>
    match hexVal? a, hexVal? b with
    | some x, some y => Char.ofNat (16 * x + y) :: pyUnquoteL rest
    | _, _ => '%' :: pyUnquoteL (a :: b :: rest)
  | c :: rest => c :: pyUnquoteL rest
  | [] => []

/-- `urllib.parse.unquote` on strings. -/
def pyUnquote (s : String) : String := ⟨pyUnquoteL s.toList⟩

/-- Substring test (`sub in s` for Python strings). -/
def containsStrL (sub : List Char) : List Char → Bool
  | [] => sub.isEmpty
  | c :: rest => sub.isPrefixOf (c :: rest) || containsStrL sub rest

/-! ## `urllib.parse`: urlsplit / urlparse / urlunparse / urljoin -/

/-- The six components returned by `urllib.parse.urlparse`
(`params` is empty for `urlsplit`). -/
structure ParseResult where
  scheme : String
  netloc : String
  path : String
  params : String
  query : String
  fragment : String
deriving DecidableEq

/-- Characters allowed in a URL scheme after the initial letter. -/
def isSchemeChar (c : Char) : Bool :=
  c.isAlpha || c.isDigit || c == '+' || c == '-' || c == '.'

/-- CPython `urllib.parse.urlsplit(url, scheme0)`: removes tab/CR/LF, splits
off `scheme` (lowercased), `netloc` (after `//`), fragment (first `#`), and
query (first `?` of what remains). -/
def urlsplitModel (url : String) (scheme0 : String) : ParseResult :=
  let l := url.toList.filter (fun c => !(c == '\t' || c == '\r' || c == '\n'))
  let sr : List Char × List Char :=
    match splitOnceL ':' l with
    | some (pre, post) =>
      if !pre.isEmpty && (pre.headD ' ').isAlpha && pre.all isSchemeChar
      then (pyLowerL pre, post)
      else (scheme0.toList, l)
    | none => (scheme0.toList, l)
  let scheme := sr.1
  let rest0 := sr.2
  let nr : List Char × List Char :=
    if "//".toList.isPrefixOf rest0 then
      let r2 := rest0.drop 2
      let n := r2.takeWhile (fun c => !(c == '/' || c == '?' || c == '#'))
      (n, r2.drop n.length)
    else ([], rest0)
  let netloc := nr.1
  let fr : List Char × List Char :=
    match splitOnceL '#' nr.2 with
    | some (a, b) => (a, b)
    | none => (nr.2, [])
  let qr : List Char × List Char :=
    match splitOnceL '?' fr.1 with
    | some (a, b) => (a, b)
    | none => (fr.1, [])
  ⟨⟨scheme⟩, ⟨netloc⟩, ⟨qr.1⟩, "", ⟨qr.2⟩, ⟨fr.2⟩⟩

/-- CPython `urllib.parse.urlparse(url, scheme0)`: `urlsplit` followed by
splitting `params` off the last path segment at its first `;`. -/
def urlparse (url : String) (scheme0 : String) : ParseResult :=
  let r := urlsplitModel url scheme0
  let p := r.path.toList
  let pp : List Char × List Char :=
    if p.contains '/' then
      let lastSeg := (p.reverse.takeWhile (fun c => !(c == '/'))).reverse
      let pre := p.take (p.length - lastSeg.length)
      match splitOnceL ';' lastSeg with
      | some (a, b) => (pre ++ a, b)
      | none => (p, [])
    else
      match splitOnceL ';' p with
      | some (a, b) => (a, b)
      | none => (p, [])
  { r with path := ⟨pp.1⟩, params := ⟨pp.2⟩ }

/-- CPython `urllib.parse.urlunsplit`. -/
def urlunsplitModel (scheme netloc path query fragment : String) : String :=
  let url :=
    if netloc != "" || "//".toList.isPrefixOf path.toList then
      let p := if path != "" && !("/".toList.isPrefixOf path.toList)
               then "/" ++ path else path
      "//" ++ netloc ++ p
    else path
  let url := if scheme != "" then scheme ++ ":" ++ url else url
  let url := if query != "" then url ++ "?" ++ query else url
  if fragment != "" then url ++ "#" ++ fragment else url

/-- CPython `urllib.parse.urlunparse`. -/
def urlunparseModel (scheme netloc path params query fragment : String) : String :=
  urlunsplitModel scheme netloc
    (if params != "" then path ++ ";" ++ params else path) query fragment

/-- `urllib.parse.uses_relative`. -/
def uses_relative : List String :=
  ["", "ftp", "http", "gopher", "nntp", "imap", "wais", "file", "https",
   "shttp", "mms", "prospero", "rtsp", "rtspu", "sftp", "svn", "svn+ssh",
   "ws", "wss"]

/-- `urllib.parse.uses_netloc`. -/
def uses_netloc : List String :=
  ["", "ftp", "http", "gopher", "nntp", "telnet", "imap", "wais", "file",
   "mms", "https", "shttp", "snews", "prospero", "rtsp", "rtspu", "rsync",
   "svn", "svn+ssh", "sftp", "nfs", "git", "git+ssh", "ws", "wss"]

/-- Middle-element cleanup in `urljoin`:
`segments[1:-1] = filter(None, segments[1:-1])` (keep first and last, drop
empty strings strictly in between). -/
def filterMid : List (List Char) → List (List Char)
  | [] => []
  | [x] => [x]
  | x :: rest => if x == ([] : List Char) then filterMid rest else x :: filterMid rest

/-- Apply `filterMid` to everything after the first element. -/
def filterMiddle : List (List Char) → List (List Char)
  | [] => []
  | [a] => [a]
  | a :: rest => a :: filterMid rest

/-- One step of `urljoin`'s segment resolution loop: `..` pops the last
resolved segment whenever any is present (`pop()` with the `IndexError`
ignored on an empty list), `.` is skipped, anything else is appended. -/
def joinStep (acc : List (List Char)) (seg : List Char) : List (List Char) :=
  if seg == "..".toList then acc.dropLast
  else if seg == ".".toList then acc
  else acc ++ [seg]

/-- CPython `urllib.parse.urljoin(base, url)`. -/
def urljoin (base url : String) : String :=
  if base == "" then url
  else if url == "" then base
  else
    let b := urlparse base ""
    let u := urlparse url b.scheme
    if u.scheme != b.scheme || !(uses_relative.contains u.scheme) then url
    else if uses_netloc.contains u.scheme && u.netloc != "" then
      urlunparseModel u.scheme u.netloc u.path u.params u.query u.fragment
    else
      let netloc :=
        if uses_netloc.contains u.scheme then
          (if u.netloc != "" then u.netloc else b.netloc)
        else u.netloc
      if u.path == "" && u.params == "" then
        let q := if u.query == "" then b.query else u.query
        urlunparseModel u.scheme netloc b.path b.params q u.fragment
      else
        let baseParts0 := splitCharL '/' b.path.toList
        let baseParts :=
          if baseParts0.getLastD [] != ([] : List Char)
          then baseParts0.dropLast else baseParts0
        let segments :=
          if "/".toList.isPrefixOf u.path.toList then splitCharL '/' u.path.toList
          else filterMiddle (baseParts ++ splitCharL '/' u.path.toList)
        let resolved := segments.foldl joinStep []
        let resolved :=
          if segments.getLastD [] == ".".toList || segments.getLastD [] == "..".toList
          then resolved ++ [[]] else resolved
        let rp := List.intercalate "/".toList resolved
        let rp := if rp == ([] : List Char) then "/".toList else rp
        urlunparseModel u.scheme netloc ⟨rp⟩ u.params u.query u.fragment

/-! ## `requests.utils.requote_uri` -/

/-- `urllib.parse` always-safe characters, which coincide with the RFC 3986
unreserved set used by `requests.utils.UNRESERVED_SET`. -/
def ALWAYS_SAFE (c : Char) : Bool :=
  c.isAlpha || c.isDigit || c == '_' || c == '.' || c == '-' || c == '~'

/-- UTF-8 encoding of a code point, as byte values. -/
def utf8Bytes (n : Nat) : List Nat :=
  if n < 0x80 then [n]
  else if n < 0x800 then [0xC0 + n / 64, 0x80 + n % 64]
  else if n < 0x10000 then [0xE0 + n / 4096, 0x80 + n / 64 % 64, 0x80 + n % 64]
  else [0xF0 + n / 262144, 0x80 + n / 4096 % 64, 0x80 + n / 64 % 64, 0x80 + n % 64]

/-- Uppercase hexadecimal digit (argument taken mod 16 by the caller). -/
def hexDigitU (n : Nat) : Char :=
  if n < 10 then Char.ofNat (48 + n) else Char.ofNat (55 + n)

/-- `%XX` escape of one byte (the `% 16` on the high digit is a no-op for
byte values and keeps the digits in range by construction). -/
def pctByte (b : Nat) : List Char := ['%', hexDigitU (b / 16 % 16), hexDigitU (b % 16)]

/-- `urllib.parse.quote` on one character. -/
def quoteCharL (safe : List Char) (c : Char) : List Char :=
  if ALWAYS_SAFE c || safe.contains c then [c]
  else ((utf8Bytes c.toNat).map pctByte).flatten

/-- `urllib.parse.quote(s, safe)`. -/
def quoteL (safe : List Char) : List Char → List Char
  | [] => []
  | c :: rest => quoteCharL safe c ++ quoteL safe rest

/-- `requests.utils.unquote_unreserved`: decode exactly the `%XX` escapes of
unreserved characters; `none` models the `InvalidURL` exception raised for a
`%` followed by two alphanumeric characters that are not a hex pair. -/
def uurL : List Char → Option (List Char)
  | '%' :: a :: b :: rest =>
    if a.isAlphanum && b.isAlphanum then
      match hexVal? a, hexVal? b with
      | some x, some y =>
        let c := Char.ofNat (16 * x + y)
        if ALWAYS_SAFE c then (uurL rest).map (fun t => c :: t)
        else (uurL rest).map (fun t => '%' :: a :: b :: t)
      | _, _ => none
    else (uurL (a :: b :: rest)).map (fun t => '%' :: t)
  | '%' :: rest => (uurL rest).map (fun t => '%' :: t)
  | c :: rest => (uurL rest).map (fun t => c :: t)
  | [] => some []

/-- `requests.utils.requote_uri`'s safe set including `%`. -/
def safeWithPercent : List Char := "!#$%&'()*+,/:;=?@[]~".toList

/-- `requests.utils.requote_uri`'s fallback safe set without `%`. -/
def safeWithoutPercent : List Char := "!#$&'()*+,/:;=?@[]~".toList

/-- `requests.utils.requote_uri`. -/
def requote_uri (s : String) : String :=
  match uurL s.toList with
  | some l => ⟨quoteL safeWithPercent l⟩
  | none => ⟨quoteL safeWithoutPercent s.toList⟩

/-! ## The regex patterns of `main.py`, modelled as leftmost-match searchers

Each `search…` function models `re.search(pattern, s, re.I)` returning group 1:
the input is scanned left to right, and at each start position the whole
pattern is tried (with the backtracking semantics worked out per pattern, as
commented).  All pattern literals are matched case-insensitively. -/

/-- Case-insensitive (ASCII) prefix strip: `some rest` when `l` starts with
`p` up to case, where `p` is given in lowercase. -/
def stripPrefixCI : List Char → List Char → Option (List Char)
  | [], cs => some cs
  | _ :: _, [] => none
  | p :: ps, c :: cs => if pyLowerC c == p then stripPrefixCI ps cs else none

/-- `skip \s*`. -/
def skipWs (cs : List Char) : List Char := cs.dropWhile isPyWs

/-- Does `l` contain `.pdf` (case-insensitively) starting at some position? -/
def containsDotPdfCI : List Char → Bool
  | [] => false
  | c :: rest => (stripPrefixCI ".pdf".toList (c :: rest)).isSome || containsDotPdfCI rest

/-- Match of `([^'"]+\.pdf[^'"]*)['"]` at the current position (just after an
opening quote): the greedy run up to the next quote character is the whole
group; the match succeeds iff that run is followed by a quote and contains
`.pdf` at an index ≥ 1 (the leading `[^'"]+` needs at least one character).
Returns the group and the remainder after the closing quote. -/
def quotedPdfRun (cs : List Char) : Option (List Char × List Char) :=
  let run := cs.takeWhile (fun c => !(c == '\'' || c == '"'))
  match cs.drop run.length with
  | _ :: rest =>
    match run with
    | [] => none
    | _ :: tail => if containsDotPdfCI tail then some (run, rest) else none
  | [] => none

/-- Pattern 1 of `PDF_PATTERNS`: `[?&#]file=([^&#]+)` at one start position. -/
def fileParamAt (cs : List Char) : Option (List Char) :=
  match cs with
  | c :: rest =>
    if c == '?' || c == '&' || c == '#' then
      match stripPrefixCI "file=".toList rest with
      | some after =>
        let g := after.takeWhile (fun c => !(c == '&' || c == '#'))
        if g.isEmpty then none else some g
      | none => none
    else none
  | [] => none

/-- `re.search` scan for pattern 1. -/
def searchFileParamL : List Char → Option (List Char)
  | [] => none
  | c :: rest =>
    match fileParamAt (c :: rest) with
    | some g => some g
    | none => searchFileParamL rest

/-- Pattern 1: `[?&#]file=([^&#]+)` (case-insensitive), group 1 of the
leftmost match. -/
def searchFileParam (s : String) : Option String :=
  (searchFileParamL s.toList).map (fun l => ⟨l⟩)

/-- Continuation of pattern 2 after the `defaultUrl`/`DEFAULT_URL` name:
`\s*[:=]\s*['"]([^'"]+\.pdf[^'"]*)['"]`. -/
def defaultUrlCont (cs : List Char) : Option (List Char) :=
  match skipWs cs with
  | c :: cs2 =>
    if c == ':' || c == '=' then
      match skipWs cs2 with
      | q :: cs3 =>
        if q == '\'' || q == '"' then (quotedPdfRun cs3).map Prod.fst else none
      | [] => none
    else none
  | [] => none

/-- `re.search` scan for pattern 2; the alternation tries `defaultUrl` before
`DEFAULT_URL` at each start position. -/
def searchDefaultUrlL : List Char → Option (List Char)
  | [] => none
  | c :: rest =>
    (match stripPrefixCI "defaulturl".toList (c :: rest) with
     | some after => defaultUrlCont after
     | none => none) <|>
    (match stripPrefixCI "default_url".toList (c :: rest) with
     | some after => defaultUrlCont after
     | none => none) <|>
    searchDefaultUrlL rest

/-- Pattern 2: `(?:defaultUrl|DEFAULT_URL)\s*[:=]\s*['"]([^'"]+\.pdf[^'"]*)['"]`. -/
def searchDefaultUrl (s : String) : Option String :=
  (searchDefaultUrlL s.toList).map (fun l => ⟨l⟩)

/-- Continuation of pattern 3 after `PDFViewerApplication.open(`:
`\s*['"](group)['"]\s*\)`. -/
def openCont (cs : List Char) : Option (List Char) :=
  match skipWs cs with
  | q :: cs2 =>
    if q == '\'' || q == '"' then
      match quotedPdfRun cs2 with
      | some (g, rest) =>
        match skipWs rest with
        | ')' :: _ => some g
        | _ => none
      | none => none
    else none
  | [] => none

/-- `re.search` scan for pattern 3. -/
def searchOpenCallL : List Char → Option (List Char)
  | [] => none
  | c :: rest =>
    (match stripPrefixCI "pdfviewerapplication.open(".toList (c :: rest) with
     | some after => openCont after
     | none => none) <|>
    searchOpenCallL rest

/-- Pattern 3: `PDFViewerApplication\.open\(\s*['"]([^'"]+\.pdf[^'"]*)['"]\s*\)`. -/
def searchOpenCall (s : String) : Option String :=
  (searchOpenCallL s.toList).map (fun l => ⟨l⟩)

/-- Continuation of pattern 4 after `PDFViewerApplicationOptions.set(`:
`\s*['"]defaultUrl['"]\s*,\s*['"](group)['"]\s*\)`. -/
def optionsSetCont (cs : List Char) : Option (List Char) :=
  match skipWs cs with
  | q1 :: cs2 =>
    if q1 == '\'' || q1 == '"' then
      match stripPrefixCI "defaulturl".toList cs2 with
      | some cs3 =>
        match cs3 with
        | q2 :: cs4 =>
          if q2 == '\'' || q2 == '"' then
            match skipWs cs4 with
            | ',' :: cs5 =>
              match skipWs cs5 with
              | q3 :: cs6 =>
                if q3 == '\'' || q3 == '"' then
                  match quotedPdfRun cs6 with
                  | some (g, rest) =>
                    match skipWs rest with
                    | ')' :: _ => some g
                    | _ => none
                  | none => none
                else none
              | [] => none
            | _ => none
          else none
        | [] => none
      | none => none
    else none
  | [] => none

/-- `re.search` scan for pattern 4. -/
def searchOptionsSetL : List Char → Option (List Char)
  | [] => none
  | c :: rest =>
    (match stripPrefixCI "pdfviewerapplicationoptions.set(".toList (c :: rest) with
     | some after => optionsSetCont after
     | none => none) <|>
    searchOptionsSetL rest

/-- Pattern 4:
`PDFViewerApplicationOptions\.set\(\s*['"]defaultUrl['"]\s*,\s*['"]([^'"]+\.pdf[^'"]*)['"]\s*\)`. -/
def searchOptionsSet (s : String) : Option String :=
  (searchOptionsSetL s.toList).map (fun l => ⟨l⟩)

/-! ## Content-Disposition filename regex -/

/-- `([^";]+)` of the Content-Disposition pattern: greedy nonempty run of
characters other than `"` and `;` (the trailing `"?` never changes the group). -/
def cdRun (cs : List Char) : Option (List Char) :=
  let run := cs.takeWhile (fun c => !(c == '"' || c == ';'))
  if run.isEmpty then none else some run

/-- `"?([^";]+)"?`: greedily try consuming an opening quote, falling back to
no quote when the remainder fails. -/
def cdQuoteRun (cs : List Char) : Option (List Char) :=
  (match cs with
   | '"' :: cs2 => cdRun cs2
   | _ => none) <|> cdRun cs

/-- `(?:UTF-8'')?"?([^";]+)"?` after the `=`: greedily try the `UTF-8''`
prefix first. -/
def cdAfterEq (cs : List Char) : Option (List Char) :=
  (match stripPrefixCI "utf-8''".toList cs with
   | some cs2 => cdQuoteRun cs2
   | none => none) <|> cdQuoteRun cs

/-- `re.search` scan for `filename\*?=(?:UTF-8'')?"?([^";]+)"?` (case-insensitive). -/
def cdSearchL : List Char → Option (List Char)
  | [] => none
  | c :: rest =>
    (match stripPrefixCI "filename".toList (c :: rest) with
     | some cs1 =>
       (match cs1 with
        | '*' :: '=' :: cs3 => cdAfterEq cs3
        | _ => none) <|>
       (match cs1 with
        | '=' :: cs3 => cdAfterEq cs3
        | _ => none)
     | none => none) <|>
    cdSearchL rest

/-- Group 1 of the leftmost match of the Content-Disposition filename regex. -/
def cdSearch (s : String) : Option String := (cdSearchL s.toList).map (fun l => ⟨l⟩)

/-! ## DOM model (BeautifulSoup abstracted) -/

/-- A BeautifulSoup attribute value: a plain string, or the list form that
BeautifulSoup produces for multi-valued attributes such as `class`/`rel`
(skipped by `isinstance(val, str)` in the source). -/
inductive AttrVal where
  | str : String → AttrVal
  | strs : List String → AttrVal
deriving DecidableEq

/-- A parsed element: lowercased tag name and its attributes in order. -/
structure Element where
  name : String
  attrs : List (String × AttrVal)
deriving DecidableEq

/-- `tag.get(k)` (first binding of the attribute dict). -/
def attrGet (e : Element) (k : String) : Option AttrVal :=
  (e.attrs.find? (fun kv => kv.1 == k)).map (fun kv => kv.2)

/-- `tag.get(k)` restricted to string values; `href`/`src`/`content` are
never multi-valued under BeautifulSoup's defaults. -/
def attrGetStr (e : Element) (k : String) : Option String :=
  match attrGet e k with
  | some (.str s) => some s
  | _ => none

/-- `tag.get("href") or tag.get("src")` with Python truthiness: an empty
`href` string falls through to `src`. -/
def hrefOrSrc (e : Element) : Option String :=
  match attrGetStr e "href" with
  | some s => if s == "" then attrGetStr e "src" else some s
  | none => attrGetStr e "src"

/-- `".pdf" in v.lower()`. -/
def containsPdfCI (s : String) : Bool := containsStrL ".pdf".toList (pyLowerL s.toList)

/-- DOM phase 1: the `href`/`src` of the first `a`/`link`/`source` element
whose (truthy) value contains `.pdf`. -/
def domPhase1 (dom : List Element) : Option String :=
  (dom.filter (fun e => e.name == "a" || e.name == "link" || e.name == "source")).findSome?
    (fun e =>
      match hrefOrSrc e with
      | some h => if h != "" && containsPdfCI h then some h else none
      | none => none)

/-- DOM phase 2: the `content` of the first `meta` element whose (truthy)
value contains `.pdf`. -/
def domPhase2 (dom : List Element) : Option String :=
  (dom.filter (fun e => e.name == "meta")).findSome?
    (fun e =>
      match attrGetStr e "content" with
      | some c => if c != "" && containsPdfCI c then some c else none
      | none => none)

/-- DOM phase 3: the first string-valued attribute of any element whose value
contains `.pdf`. -/
def domPhase3 (dom : List Element) : Option String :=
  dom.findSome? (fun e =>
    e.attrs.findSome? (fun kv =>
      match kv.2 with
      | .str v => if containsPdfCI v then some v else none
      | .strs _ => none))

/-! ## The program: `resolve_url`, `find_pdf_url_in_html`, `extract_pdf_url`,
`pick_filename_from_response`, `download_pdf` -/

/-- `decoded.lower().startswith(("http://", "https://", "data:"))`. -/
def startsHttpData (s : String) : Bool :=
  let l := pyLowerL s.toList
  "http://".toList.isPrefixOf l || "https://".toList.isPrefixOf l ||
    "data:".toList.isPrefixOf l

/-- `resolve_url(base_url, maybe_url)` from `main.py`. -/
def resolve_url (base_url maybe_url : String) : String :=
  if maybe_url == "" then ""
  else
    let decoded := pyUnquote maybe_url
    let decoded :=
      match searchFileParam decoded with
      | some g => pyUnquote g
      | none => decoded
    if startsHttpData decoded then decoded
    else urljoin base_url decoded

/-- `PDF_PATTERNS` from `main.py`, as the ordered list of group-1 searchers. -/
def PDF_PATTERNS : List (String → Option String) :=
  [searchFileParam, searchDefaultUrl, searchOpenCall, searchOptionsSet]

/-- The `for rx in PDF_PATTERNS` loop: first pattern (in list order) that
matches anywhere in the source wins. -/
def firstTextualMatch (html : String) : Option String :=
  PDF_PATTERNS.findSome? (fun rx => rx html)

/-- `find_pdf_url_in_html(base_url, html)` from `main.py`; `dom` is the
BeautifulSoup parse of `html` (see the module comment). -/
def find_pdf_url_in_html (base_url html : String) (dom : List Element) : String :=
  match firstTextualMatch html with
  | some g => resolve_url base_url g
  | none =>
    match domPhase1 dom with
    | some h => resolve_url base_url h
    | none =>
      match domPhase2 dom with
      | some c => resolve_url base_url c
      | none =>
        match domPhase3 dom with
        | some v => resolve_url base_url v
        | none => ""

/-- An HTTP response, as far as the program observes one: final URL after
redirects (`r.url`), status code, body text, its parse, headers, and the
streamed body chunks. -/
structure HttpResponse where
  status : Nat
  url : String
  text : String
  dom : List Element
  headers : List (String × String)
  chunks : List String

/-- `requests.Response.raise_for_status` raises exactly for 4xx/5xx. -/
def raiseForStatusFails (status : Nat) : Bool :=
  decide (400 ≤ status) && decide (status < 600)

/-- The errors `extract_pdf_url`/`download_pdf` can raise. -/
inductive PyErr where
  | httpError : Nat → PyErr
  | pdfNotFound : PyErr
deriving DecidableEq

/-- `extract_pdf_url(session, url, ...)` from `main.py`.  `net` is the
network (the session's redirected GET); the second component lists the URLs
actually fetched, in order. -/
def extract_pdf_url (net : String → HttpResponse) (url : String) :
    Except PyErr String × List String :=
  if pyEndsWith (pyLower (urlparse url "").path) ".pdf" then
    (.ok (requote_uri url), [])
  else
    match searchFileParam url with
    | some g => (.ok (requote_uri (resolve_url url g)), [])
    | none =>
      let r := net url
      if raiseForStatusFails r.status then (.error (.httpError r.status), [url])
      else
        let pdf_url := find_pdf_url_in_html r.url r.text r.dom
        if pdf_url == "" then (.error .pdfNotFound, [url])
        else (.ok (requote_uri pdf_url), [url])

/-- Case-insensitive header lookup with default `""`
(`resp.headers.get("Content-Disposition", "")`; requests' header dict is
case-insensitive). -/
def headerGetCI (hs : List (String × String)) (k : String) : String :=
  match hs.find? (fun kv => pyLower kv.1 == pyLower k) with
  | some kv => kv.2
  | none => ""

/-- `os.path.basename` (posix): the part after the last `/`. -/
def basenameStr (p : String) : String :=
  ⟨(p.toList.reverse.takeWhile (fun c => !(c == '/'))).reverse⟩

/-- `pick_filename_from_response(resp, fallback_url)` from `main.py`. -/
def pick_filename_from_response (resp : HttpResponse) (fallback_url : String) : String :=
  let cd := headerGetCI resp.headers "Content-Disposition"
  match cdSearch cd with
  | some name => pyStrip (pyUnquote name)
  | none =>
    let path := (urlparse fallback_url "").path
    let name := basenameStr path
    let name := if name == "" then "download.pdf" else name
    if pyEndsWith (pyLower name) ".pdf" then name else name ++ ".pdf"

/-- The filesystem as the program observes it: which paths are existing
directories, and the files written (most recent first). -/
structure FS where
  dirs : List String
  files : List (String × String)
deriving DecidableEq

/-- Writing a file. -/
def FS.writeFile (fs : FS) (p content : String) : FS :=
  ⟨fs.dirs, (p, content) :: fs.files⟩

/-- The bytes written by the `iter_content` loop: concatenation of the
nonempty chunks (`if chunk: f.write(chunk)`). -/
def joinedBody (chunks : List String) : String :=
  String.join (chunks.filter (fun c => c != ""))

/-- `pathlib`'s `out_path / fname`, modelled as `/`-concatenation. -/
def joinPath (dir fname : String) : String := dir ++ "/" ++ fname

/-- `download_pdf(pdf_url, out_path, ...)` from `main.py`: the status check
precedes the choice of output file, which precedes the write.  Returns the
saved path and the filesystem after the call (unchanged on error). -/
def download_pdf (net : String → HttpResponse) (pdf_url out_path : String)
    (fs : FS) : Except PyErr String × FS :=
  let r := net pdf_url
  if raiseForStatusFails r.status then (.error (.httpError r.status), fs)
  else
    let out_file :=
      if fs.dirs.contains out_path
      then joinPath out_path (pick_filename_from_response r pdf_url)
      else out_path
    (.ok out_file, fs.writeFile out_file (joinedBody r.chunks))

/-- A network whose response is never inspected (status 200, empty). -/
def okNet : String → HttpResponse := fun _ => ⟨200, "", "", [], [], []⟩

/-- A network that always returns 500. -/
def net500 : String → HttpResponse := fun _ => ⟨500, "", "", [], [], []⟩

set_option maxRecDepth 40000 in
/-- **C6.** For the page consisting of
`PDFViewerApplicationOptions.set('defaultUrl', 'docs/report.pdf')` with base
URL `https://site.example/viewer/index.html`, in-page resolution yields
exactly `https://site.example/viewer/docs/report.pdf`. -/
theorem inpage_options_set_example :
    find_pdf_url_in_html "https://site.example/viewer/index.html"
      "PDFViewerApplicationOptions.set('defaultUrl', 'docs/report.pdf')" [] =
      "https://site.example/viewer/docs/report.pdf" := by decide

/-! ## C7: "not found" failure with no download attempt -/

/-- **C10.** When the download response has an error HTTP status the status
check fires before any output file is chosen or opened: `download_pdf`
returns the error with the filesystem exactly as it was. -/
theorem download_error_preserves_fs (net : String → HttpResponse)
    (pdf out : String) (fs : FS)
    (h : raiseForStatusFails (net pdf).status = true) :
    download_pdf net pdf out fs = (.error (.httpError (net pdf).status), fs) := by
  simp [download_pdf, h]

/-- Witness for C10 on a 500 network and a nonempty filesystem. -/
theorem download_error_preserves_fs_witness :
    download_pdf net500 "https://h/a.pdf" "d" ⟨["d"], [("d/old.pdf", "x")]⟩ =
      (.error (.httpError 500), ⟨["d"], [("d/old.pdf", "x")]⟩) :=
  download_error_preserves_fs net500 "https://h/a.pdf" "d"
    ⟨["d"], [("d/old.pdf", "x")]⟩ (by decide)

/-! ## C5: what "percent-escaped, absolute" really holds of results -/

/-- Characters that can appear in `requote_uri` output: the unreserved set
plus the reserved characters it treats as safe. -/
def urlSafeOutChar (c : Char) : Bool := ALWAYS_SAFE c || safeWithPercent.contains c

/-- Counterexample to **C5** as stated: on the input `a.pdf` resolution
succeeds (the direct-`.pdf` branch echoes the input), yet the result carries
no `http`/`https`/`data` scheme and is not absolute. -/
theorem extract_not_absolute_counterexample :
    extract_pdf_url okNet "a.pdf" = (.ok "a.pdf", []) ∧
    startsHttpData "a.pdf" = false := ⟨rfl, rfl⟩

/-- Hexadecimal digits emitted in escapes are URL-safe. -/
theorem hexDigitU_safe : ∀ k, k < 16 → urlSafeOutChar (hexDigitU k) = true := by decide

/-- A `%XX` escape consists of URL-safe characters. -/
theorem pctByte_safe (b : Nat) : (pctByte b).all urlSafeOutChar = true := by
  have h1 := hexDigitU_safe (b / 16 % 16) (Nat.mod_lt _ (by omega))
  have h2 := hexDigitU_safe (b % 16) (Nat.mod_lt _ (by omega))
  simp only [pctByte, List.all_cons, List.all_nil, h1, h2, Bool.and_true]
  decide

/-- Quoting one character with a safe set of URL-safe characters yields only
URL-safe characters. -/
theorem quoteCharL_safe (safe : List Char)
    (hs : ∀ c ∈ safe, urlSafeOutChar c = true) (c : Char) :
    (quoteCharL safe c).all urlSafeOutChar = true := by
  unfold quoteCharL
  split
  · rename_i h
    simp only [List.all_cons, List.all_nil, Bool.and_true]
    rcases Bool.or_eq_true_iff.mp h with ha | hc
    · simp [urlSafeOutChar, ha]
    · exact hs c (List.mem_of_elem_eq_true hc)
  · rw [List.all_eq_true]
    intro x hx
    rw [List.mem_flatten] at hx
    obtain ⟨l, hl, hxl⟩ := hx
    rw [List.mem_map] at hl
    obtain ⟨b, -, rfl⟩ := hl
    exact List.all_eq_true.mp (pctByte_safe b) x hxl

/-- `quote` output over a URL-safe safe set is entirely URL-safe. -/
theorem quoteL_safe (safe : List Char)
    (hs : ∀ c ∈ safe, urlSafeOutChar c = true) :
    ∀ l, (quoteL safe l).all urlSafeOutChar = true := by
  intro l
  induction l with
  | nil => rfl
  | cons c rest ih =>
    simp only [quoteL, List.all_append, ih, Bool.and_true]
    exact quoteCharL_safe safe hs c

/-- Both safe sets of `requote_uri` are URL-safe. -/
theorem requote_safe_sets :
    (∀ c ∈ safeWithPercent, urlSafeOutChar c = true) ∧
    (∀ c ∈ safeWithoutPercent, urlSafeOutChar c = true) := by decide

/-- Every `requote_uri` output consists solely of URL-safe characters. -/
theorem requote_uri_chars_safe (s : String) :
    (requote_uri s).toList.all urlSafeOutChar = true := by
  unfold requote_uri
  cases uurL s.toList with
  | some l => exact quoteL_safe safeWithPercent requote_safe_sets.1 l
  | none => exact quoteL_safe safeWithoutPercent requote_safe_sets.2 s.toList

/-- **C5 (amended).** Every successful resolution result is percent-escaped:
it is a `requote_uri` output, so it consists solely of URL-safe characters
(unreserved or reserved); it is *not* in general absolute — when the input
URL itself is relative or carries another scheme, the result does too
(see the counterexample). -/
theorem extract_result_percent_escaped (net : String → HttpResponse)
    (url res : String) (reqs : List String)
    (h : extract_pdf_url net url = (.ok res, reqs)) :
    res.toList.all urlSafeOutChar = true := by
  unfold extract_pdf_url at h
  split at h
  · simp only [Prod.mk.injEq, Except.ok.injEq] at h
    rw [← h.1]
    exact requote_uri_chars_safe url
  · split at h
    · simp only [Prod.mk.injEq, Except.ok.injEq] at h
      rw [← h.1]
      exact requote_uri_chars_safe _
    · dsimp only at h
      split at h
      · simp at h
      · split at h
        · simp at h
        · simp only [Prod.mk.injEq, Except.ok.injEq] at h
          rw [← h.1]
          exact requote_uri_chars_safe _

/-- Witness for the amended C5 on a concrete successful resolution. -/
theorem extract_result_percent_escaped_witness :
    ("http://h/a.pdf").toList.all urlSafeOutChar = true :=
  extract_result_percent_escaped okNet "http://h/a.pdf" "http://h/a.pdf" [] rfl

/-! ## C8: download target and filename derivation -/

end PdfScrapper
